import Mathlib

/-!
Shallow embedding of the agx repository (Rust) for checking its
natural-language specification.  The definitions below are translated
from the source files `src/plan.rs`, `src/job.rs`, `src/registry.rs`,
`src/executor.rs` and `src/agq_client.rs`.  Machine strings are Lean
`String`s, byte buffers are `List Nat`, Rust `u32`/`usize` values are
`Nat`, `i32`/`i64` are `Int`.  Network and subprocess effects are made
explicit: the wire client takes the list of server replies as an
argument and returns the list of requests it sent; the executor takes
an oracle giving each spawned process's outcome and returns the list of
spawned processes.
-/

/-- Character constant for the double quote (U+0022). -/
def dquoteChar : Char := Char.ofNat 34

/-- Character constant for the backslash (U+005C). -/
def backslashChar : Char := Char.ofNat 92

/-- Character constant for the forward slash (U+002F). -/
def slashChar : Char := Char.ofNat 47

/-- Character constant for the comma (U+002C). -/
def commaChar : Char := Char.ofNat 44

/-- Character constant for the closing square bracket (U+005D). -/
def rbracketChar : Char := Char.ofNat 93

/-- Character constant for the closing curly bracket (U+007D). -/
def rbraceChar : Char := Char.ofNat 125

/-- Character constant for the colon (U+003A). -/
def colonChar : Char := Char.ofNat 58

/-- Character constant for the underscore (U+005F). -/
def underscoreChar : Char := Char.ofNat 95

/-- Character constant for the dash (U+002D). -/
def dashChar : Char := Char.ofNat 45

/-- Rust `char::is_whitespace` (Unicode White_Space property): U+0009–U+000D,
U+0020, U+0085, U+00A0, U+1680, U+2000–U+200A, U+2028, U+2029, U+202F,
U+205F and U+3000. -/
def rustIsWhitespace (c : Char) : Bool :=
  let n := c.toNat
  (9 ≤ n && n ≤ 13) || n = 32 || n = 133 || n = 160 || n = 5760 ||
    (8192 ≤ n && n ≤ 8202) || n = 8232 || n = 8233 || n = 8239 || n = 8287 || n = 12288

/-- Rust `char::is_alphanumeric` (Unicode Alphabetic or general category N).
Modelled exactly for code points below U+0100: ASCII digits and letters, plus
the Latin-1 Supplement alphanumerics U+00AA, U+00B5, U+00BA, U+00B2, U+00B3,
U+00B9, U+00BC–U+00BE, U+00C0–U+00D6, U+00D8–U+00F6 and U+00F8–U+00FF.
Rust additionally accepts many code points at U+0100 and above; those are not
needed by any theorem in this file, and the theorems that quantify over ids
restrict themselves to characters below U+0100 where this model is exact. -/
def rustIsAlphanumeric (c : Char) : Bool :=
  let n := c.toNat
  (48 ≤ n && n ≤ 57) || (65 ≤ n && n ≤ 90) || (97 ≤ n && n ≤ 122) ||
    n = 170 || n = 181 || n = 186 || n = 178 || n = 179 || n = 185 ||
    (188 ≤ n && n ≤ 190) || (192 ≤ n && n ≤ 255 && n ≠ 215 && n ≠ 247)

/-! ## `src/plan.rs` — plan data model, normalization and quote repair -/

/-- One step of a workflow plan (`PlanStep` in `src/plan.rs`). -/
structure PlanStep where
  task_number : Nat
  command : String
  args : List String
  timeout_secs : Nat
  input_from_task : Option Nat
  deriving Repr, DecidableEq

/-- A workflow plan (`WorkflowPlan` in `src/plan.rs`). -/
structure WorkflowPlan where
  plan_id : Option String
  plan_description : Option String
  tasks : List PlanStep
  deriving Repr, DecidableEq

/-- The renumbering loop of `normalize_for_execution` (and of the other
enumerate-based constructors): assign `start`, `start+1`, … to the task
numbers in order.  The source iterates with `enumerate()` assigning
`index + 1`; this recursion starting at 1 is the same assignment. -/
def renumberTasks (start : Nat) : List PlanStep → List PlanStep
  | [] => []
  | t :: ts => { t with task_number := start } :: renumberTasks (start + 1) ts

/-- `WorkflowPlan::normalize_for_execution` from `src/plan.rs`: a single-task
plan whose sole command is `"uniq"` is rewritten to `sort` followed by `uniq`
with `input_from_task = Some(1)`; then all task numbers are reassigned
contiguously starting at 1. -/
def WorkflowPlan.normalize_for_execution (p : WorkflowPlan) : WorkflowPlan :=
  let tasks :=
    match p.tasks with
    | [t] =>
      if t.command = "uniq" then
        [ { task_number := 1, command := "sort", args := [], timeout_secs := 300,
            input_from_task := none },
          { task_number := 2, command := "uniq", args := [], timeout_secs := 300,
            input_from_task := some 1 } ]
      else [t]
    | ts => ts
  { p with tasks := renumberTasks 1 tasks }

/-- The task list built by the `SimpleWorkflowPlan` branch of
`try_all_known_forms` in `src/plan.rs`: each command string becomes a task with
empty args, timeout 300 and no input link, numbered from `start`. -/
def simpleTasks (start : Nat) : List String → List PlanStep
  | [] => []
  | c :: cs =>
    { task_number := start, command := c, args := [], timeout_secs := 300,
      input_from_task := none } :: simpleTasks (start + 1) cs

/-- The `WorkflowPlan` produced when the input text decodes as the simple
schema `\x7b"plan": [string, ...]\x7d` (the `SimpleWorkflowPlan` branch of
`try_all_known_forms`).  The JSON decoding itself is done by the external
`serde_json` library; on the literal input `\x7b"plan":["uniq"]\x7d` the
canonical and legacy branches fail (no `tasks` field, elements are not
objects) and this branch receives `["uniq"]`. -/
def simpleWorkflowToPlan (cmds : List String) : WorkflowPlan :=
  { plan_id := none, plan_description := none, tasks := simpleTasks 1 cmds }

/-- First non-whitespace character of a character list (the lookahead loop in
`repair_unescaped_quotes`). -/
def firstNonWs : List Char → Option Char
  | [] => none
  | c :: cs => if rustIsWhitespace c then firstNonWs cs else some c

/-- The `should_escape` decision in `repair_unescaped_quotes`: a closing
double quote is kept as a terminator only when the next non-whitespace
character is a comma, closing bracket, closing brace, colon, or when there is
none; otherwise the quote is escaped. -/
def shouldEscapeQuote (nextNonWs : Option Char) : Bool :=
  match nextNonWs with
  | none => false
  | some c =>
    !(c = commaChar || c = rbracketChar || c = rbraceChar || c = colonChar)

/-- The slash-lookahead in `repair_unescaped_quotes`: after escaping a quote
followed by a slash, the slash is consumed when the first non-whitespace
character after it is a comma, closing bracket or closing brace. -/
def slashEats (rest : List Char) : Bool :=
  match firstNonWs rest with
  | some c => c = commaChar || c = rbracketChar || c = rbraceChar
  | none => false

/-- Whether the remaining input starts with a slash that the slash-lookahead
of `repair_unescaped_quotes` will consume (`chars.next()` inside the
`matches!(chars.peek(), Some('/'))` block of the source). -/
def slashConsume : List Char → Bool
  | d :: rest => d = slashChar && slashEats rest
  | [] => false

/-- The character loop of `repair_unescaped_quotes` in `src/plan.rs`, with
the `in_string` and `escaped` state variables made explicit.  The source
consumes the slash following an escaped quote with an extra `chars.next()`;
here that extra consumption is carried by the `skipNext` flag, which drops
the next character (the slash) at the start of the following step. -/
def repairGo : List Char → Bool → Bool → Bool → List Char
  | [], _, _, _ => []
  | c :: cs, skipNext, inString, escaped =>
    if skipNext then
      repairGo cs false inString escaped
    else if c = dquoteChar then
      if !inString then
        dquoteChar :: repairGo cs false true escaped
      else if escaped then
        dquoteChar :: repairGo cs false inString false
      else if shouldEscapeQuote (firstNonWs cs) then
        backslashChar :: dquoteChar :: repairGo cs (slashConsume cs) inString escaped
      else
        dquoteChar :: repairGo cs false false escaped
    else
      c :: repairGo cs false inString (inString && c = backslashChar && !escaped)

/-- `repair_unescaped_quotes` from `src/plan.rs`. -/
def repair_unescaped_quotes (value : String) : String :=
  String.mk (repairGo value.data false false false)

/-! ## `src/job.rs` — job envelope and its validation -/

/-- One task of a job envelope (`JobTask` in `src/job.rs`). -/
structure JobTask where
  task_number : Nat
  command : String
  args : List String
  timeout_secs : Nat
  input_from_task : Option Nat
  deriving Repr, DecidableEq

/-- `EnvelopeValidationError` from `src/job.rs`. -/
inductive EnvelopeValidationError where
  | EmptyTasks
  | TooManyTasks (count : Nat)
  | NonMonotonicTasks
  | BadInputReference (task : Nat)
  | FirstTaskNotOne (n : Nat)
  deriving Repr, DecidableEq

/-- `JobEnvelope` from `src/job.rs`. -/
structure JobEnvelope where
  job_id : String
  plan_id : String
  plan_description : Option String
  tasks : List JobTask
  deriving Repr, DecidableEq

/-- The `windows(2)` loop of `JobEnvelope::validate`: every adjacent pair of
tasks must have successive task numbers. -/
def windowsOk : List JobTask → Bool
  | a :: b :: rest => (a.task_number + 1 = b.task_number) && windowsOk (b :: rest)
  | _ => true

/-- The input-reference loop of `JobEnvelope::validate`: walk the tasks left
to right, inserting each task number into the seen set before checking that a
present `input_from_task` is strictly below the owner and already seen.  The
source uses a `HashSet`; a list with `contains` is the same membership test. -/
def refsLoop (seen : List Nat) : List JobTask → Except EnvelopeValidationError Unit
  | [] => .ok ()
  | t :: rest =>
    let seen2 := t.task_number :: seen
    match t.input_from_task with
    | some r =>
      if decide (t.task_number ≤ r) || !(seen2.contains r) then
        .error (.BadInputReference r)
      else refsLoop seen2 rest
    | none => refsLoop seen2 rest

/-- `JobEnvelope::validate` from `src/job.rs`, with the checks in source
order: empty, first task number, task count, adjacent numbering, input
references. -/
def JobEnvelope.validate (env : JobEnvelope) (maxTasks : Nat) :
    Except EnvelopeValidationError Unit :=
  match env.tasks with
  | [] => .error .EmptyTasks
  | t0 :: _ =>
    if t0.task_number ≠ 1 then .error (.FirstTaskNotOne t0.task_number)
    else if env.tasks.length > maxTasks then .error (.TooManyTasks env.tasks.length)
    else if !windowsOk env.tasks then .error .NonMonotonicTasks
    else refsLoop [] env.tasks

/-! ## `src/registry.rs` — the tool registry -/

/-- `Tool` from `src/registry.rs`. -/
structure Tool where
  id : String
  command : String
  description : String
  patterns : List String
  ok_exit_codes : List Int
  deriving Repr, DecidableEq

/-- The static `TOOLS` table from `src/registry.rs`. -/
def TOOLS : List Tool :=
  [ { id := "sort", command := "sort", description := "Sort lines of text.",
      patterns := ["sort", "order", "alphabetize", "sort lines"], ok_exit_codes := [0] },
    { id := "uniq", command := "uniq", description := "Remove duplicate lines.",
      patterns := ["dedupe", "unique", "remove duplicates"], ok_exit_codes := [0] },
    { id := "grep", command := "grep", description := "Filter lines that match a pattern.",
      patterns := ["search", "filter", "match", "grep"], ok_exit_codes := [0, 1] },
    { id := "cut", command := "cut", description := "Extract fields or columns from lines.",
      patterns := ["columns", "fields", "delimiter", "extract columns"], ok_exit_codes := [0] },
    { id := "tr", command := "tr", description := "Translate or delete characters in text.",
      patterns := ["translate", "replace characters", "lowercase", "uppercase"],
      ok_exit_codes := [0] },
    { id := "jq", command := "jq", description := "Filter and transform JSON data.",
      patterns := ["json", "jq", "filter json", "transform json"], ok_exit_codes := [0] } ]

/-- `ToolRegistry::find_by_id` from `src/registry.rs`. -/
def ToolRegistry.find_by_id (id : String) : Option Tool :=
  TOOLS.find? (fun t => t.id == id)

/-! ## `src/executor.rs` — the local pipeline executor

The executor spawns one subprocess per task.  The operating-system side
(spawning, pipes, exit statuses) is outside the repository; it is modelled by
an oracle mapping the spawned executable, its arguments and the bytes written
to its stdin to the process outcome.  Spawn and pipe IO failures are not
modelled.  `execute` additionally returns the list of processes it spawned,
in order, so that theorems can speak about what was and was not spawned. -/

/-- Outcome of one spawned subprocess: `exit_code` is `status.code()`,
`success` is `status.success()` (consulted only when `code()` is `None`,
i.e. death by signal), plus captured stdout bytes and the stderr text. -/
structure ProcOutput where
  exit_code : Option Int
  success : Bool
  stdout : List Nat
  stderr : String
  deriving Repr, DecidableEq

/-- Record of one spawned process: the executable name and arguments passed
to `Command::new(tool.command).args(&task.args)`. -/
structure SpawnRecord where
  command : String
  args : List String
  deriving Repr, DecidableEq

/-- Display of a child exit status in the stage-failure message.  Rust
formats this with std's `ExitStatus` Display implementation (external to the
repository); it is modelled as the exit code when one is present. -/
def statusDisplay (o : ProcOutput) : String :=
  match o.exit_code with
  | some v => "exit status: " ++ toString v
  | none => "signal"

/-- The `is_ok` judgement of `Executor::execute` in `src/executor.rs`: a
stage succeeds when its exit code lies in the tool's `ok_exit_codes` set,
falling back to `status.success()` when there is no exit code (death by
signal). -/
def stageOk (tool : Tool) (out : ProcOutput) : Bool :=
  match out.exit_code with
  | some v => tool.ok_exit_codes.contains v
  | none => out.success

/-- The per-task loop of `Executor::execute` from `src/executor.rs`: look the
command up in the registry (unknown commands abort naming the command), spawn
the tool, judge success with `stageOk`, and thread stdout into the next
stage.  The quote characters around the command name in the source's failure
message are omitted here. -/
def execLoop (oracle : String → List String → List Nat → ProcOutput) :
    List PlanStep → List Nat → List SpawnRecord →
    Except String (List Nat) × List SpawnRecord
  | [], data, trace => (.ok data, trace)
  | task :: rest, data, trace =>
    match ToolRegistry.find_by_id task.command with
    | none => (.error ("unknown tool in plan: " ++ task.command), trace)
    | some tool =>
      let out := oracle tool.command task.args data
      let trace2 := trace ++ [{ command := tool.command, args := task.args }]
      if stageOk tool out then execLoop oracle rest out.stdout trace2
      else
        (.error ("command " ++ tool.command ++ " failed with status " ++
          statusDisplay out ++ ": " ++ out.stderr.trim), trace2)

/-- `Executor::execute` from `src/executor.rs`.  An empty plan copies the
input bytes to the output unchanged; otherwise the tasks run as a sequential
chain.  The returned pair is (result, spawned processes in order). -/
def Executor.execute (plan : WorkflowPlan) (input : List Nat)
    (oracle : String → List String → List Nat → ProcOutput) :
    Except String (List Nat) × List SpawnRecord :=
  if plan.tasks.isEmpty then (.ok input, [])
  else execLoop oracle plan.tasks input []

/-! ## `src/agq_client.rs` — the wire protocol client

Network effects are made explicit: each call takes the list of RESP replies
the server will produce, in order, and returns both its result and the list
of requests it sent.  A request is represented as the list of bulk strings of
the RESP array built by `resp_array` (the byte-level framing adds nothing the
claims are about). -/

/-- `RespValue` from `src/agq_client.rs`. -/
inductive RespValue where
  | SimpleString (s : String)
  | BulkString (s : String)
  | Error (s : String)
  | Integer (i : Int)
  | Array (items : List RespValue)
  | Null

mutual

/-- Rust `#[derive(Debug)]` rendering of a `RespValue`, used in the
`unexpected ... response: {:?}` error messages (string escaping inside the
payload is not reproduced). -/
def respDebug : RespValue → String
  | .SimpleString s => "SimpleString(\"" ++ s ++ "\")"
  | .BulkString s => "BulkString(\"" ++ s ++ "\")"
  | .Error s => "Error(\"" ++ s ++ "\")"
  | .Integer i => "Integer(" ++ toString i ++ ")"
  | .Array items => "Array([" ++ respDebugItems items ++ "])"
  | .Null => "Null"

/-- Comma-separated `#[derive(Debug)]` rendering of the elements of a
`RespValue::Array`. -/
def respDebugItems : List RespValue → String
  | [] => ""
  | [v] => respDebug v
  | v :: rest => respDebug v ++ ", " ++ respDebugItems rest

end

/-- `AgqClient::connect_and_auth` from `src/agq_client.rs`, with the fresh
connection's reply stream passed in and the sent requests returned.  With a
configured session key an `AUTH` command is sent first; a SimpleString or
BulkString reply is accepted, an Error reply aborts naming AUTH, and any
other shape is a protocol error.  On success the remaining replies are handed
to the caller. -/
def connect_and_auth (sessionKey : Option String) (replies : List RespValue) :
    Except String (List RespValue) × List (List String) :=
  match sessionKey with
  | none => (.ok replies, [])
  | some key =>
    match replies with
    | [] => (.error "empty response from AGQ", [["AUTH", key]])
    | r :: rest =>
      match r with
      | .SimpleString _ => (.ok rest, [["AUTH", key]])
      | .BulkString _ => (.ok rest, [["AUTH", key]])
      | .Error msg => (.error ("AUTH failed: " ++ msg), [["AUTH", key]])
      | other => (.error ("unexpected AUTH response: " ++ respDebug other), [["AUTH", key]])

/-- The shared shape of every wire operation in `src/agq_client.rs`
(`submit_plan`, `submit_action`, `list_plans`, `get_plan`, `simple_query`):
connect and authenticate, send the substantive command, read exactly one
response value.  Returns the raw response for the operation to interpret,
plus the requests sent. -/
def wireCall (sessionKey : Option String) (cmd : List String)
    (replies : List RespValue) : Except String RespValue × List (List String) :=
  match connect_and_auth sessionKey replies with
  | (.error e, sent) => (.error e, sent)
  | (.ok rest, sent) =>
    match rest with
    | [] => (.error "empty response from AGQ", sent ++ [cmd])
    | r :: _ => (.ok r, sent ++ [cmd])

/-- `AgqClient::submit_plan` from `src/agq_client.rs` (the `submitted_at`
timestamp is not modelled): a SimpleString or BulkString reply is the job id,
an Error reply is a submission failure, anything else a protocol error. -/
def submit_plan (sessionKey : Option String) (planJson : String)
    (replies : List RespValue) : Except String String × List (List String) :=
  match wireCall sessionKey ["PLAN.SUBMIT", planJson] replies with
  | (.error e, sent) => (.error e, sent)
  | (.ok r, sent) =>
    match r with
    | .SimpleString s => (.ok s, sent)
    | .BulkString s => (.ok s, sent)
    | .Error msg => (.error ("AGQ error: " ++ msg), sent)
    | other => (.error ("unexpected AGQ response: " ++ respDebug other), sent)

/-- `ActionEnvelope` from `src/agq_client.rs`. -/
structure ActionEnvelope where
  action_id : String
  plan_id : String
  plan_description : Option String
  jobs_created : Nat
  job_ids : List String
  deriving Repr, DecidableEq

/-- `ActionEnvelope::validate` from `src/agq_client.rs`: reject an envelope
whose `jobs_created` count disagrees with the number of `job_ids`. -/
def ActionEnvelope.validate (e : ActionEnvelope) : Except String Unit :=
  if e.jobs_created ≠ e.job_ids.length then
    .error ("ActionEnvelope validation failed: jobs_created (" ++
      toString e.jobs_created ++ ") != job_ids.len() (" ++
      toString e.job_ids.length ++ ")")
  else .ok ()

/-- The response handling of `AgqClient::submit_action` from
`src/agq_client.rs`.  JSON decoding is done by the external `serde_json`
library, passed in as `decode`; a decodable BulkString is still re-checked
with `ActionEnvelope::validate` before being returned. -/
def submit_action_response (decode : String → Option ActionEnvelope) :
    RespValue → Except String ActionEnvelope
  | .BulkString s =>
    match decode s with
    | none => .error "failed to parse ACTION.SUBMIT response"
    | some envl =>
      match envl.validate with
      | .error e => .error e
      | .ok _ => .ok envl
  | .Error msg => .error ("AGQ error: " ++ msg)
  | other => .error ("unexpected AGQ response: " ++ respDebug other)

/-- The element coercion of `AgqClient::simple_query` from
`src/agq_client.rs`: SimpleString and BulkString elements keep their text,
Integer elements are rendered in decimal, every other shape is dropped. -/
def respDisplayItem : RespValue → Option String
  | .SimpleString s => some s
  | .BulkString s => some s
  | .Integer i => some (toString i)
  | _ => none

/-- The response handling of `AgqClient::simple_query` from
`src/agq_client.rs`, shared by `list_jobs`, `list_workers` and
`queue_stats`: an Array is coerced elementwise with `respDisplayItem`
(unconvertible elements silently dropped), an Error reply is an application
error, a top-level SimpleString or BulkString becomes a one-element result,
and any other shape is a protocol error. -/
def simple_query_response : RespValue → Except String (List String)
  | .Array items => .ok (items.filterMap respDisplayItem)
  | .Error msg => .error ("AGQ error: " ++ msg)
  | .SimpleString s => .ok [s]
  | .BulkString s => .ok [s]
  | other => .error ("unexpected AGQ response: " ++ respDebug other)

/-- `OpsResponse` from `src/agq_client.rs`. -/
inductive OpsResponse where
  | Jobs (xs : List String)
  | Workers (xs : List String)
  | QueueStats (xs : List String)
  deriving Repr, DecidableEq

/-- Response handling of `AgqClient::list_jobs`: `simple_query` wrapped in
`OpsResponse::Jobs`. -/
def list_jobs_response (r : RespValue) : Except String OpsResponse :=
  (simple_query_response r).map OpsResponse.Jobs

/-- Response handling of `AgqClient::list_workers`: `simple_query` wrapped in
`OpsResponse::Workers`. -/
def list_workers_response (r : RespValue) : Except String OpsResponse :=
  (simple_query_response r).map OpsResponse.Workers

/-- Response handling of `AgqClient::queue_stats`: `simple_query` wrapped in
`OpsResponse::QueueStats`. -/
def queue_stats_response (r : RespValue) : Except String OpsResponse :=
  (simple_query_response r).map OpsResponse.QueueStats

/-- Character test of the `plan_id` validation in `AgqClient::get_plan`:
`c.is_alphanumeric() || c == '_' || c == '-'`. -/
def planIdCharOk (c : Char) : Bool :=
  rustIsAlphanumeric c || c = underscoreChar || c = dashChar

/-- The client-side validation prefix of `AgqClient::get_plan` from
`src/agq_client.rs`, everything that happens before `connect_and_auth`:
reject ids with a character failing `planIdCharOk`, empty ids, and ids above
128 UTF-8 bytes (`plan_id.len()` in Rust counts bytes), in that order.  When
validation passes the function returns the `PLAN.GET` request that is then
sent over the freshly opened connection. -/
def get_plan_request (planId : String) : Except String (List String) :=
  if !(planId.data.all planIdCharOk) then
    .error "invalid plan_id: must contain only alphanumeric characters, underscore, or dash"
  else if planId = "" then
    .error "plan_id cannot be empty"
  else if planId.utf8ByteSize > 128 then
    .error "plan_id too long (max 128 characters)"
  else
    .ok ["PLAN.GET", planId]

/-! ## Specification-side definitions and concrete fixtures -/

deriving instance DecidableEq for Except

/-- The plan-id character set named by the specification, `[A-Za-z0-9_-]`,
written from the spec's words for comparison with the code's
`planIdCharOk`. -/
def specPlanIdChar (c : Char) : Bool :=
  let n := c.toNat
  (48 ≤ n && n ≤ 57) || (65 ≤ n && n ≤ 90) || (97 ≤ n && n ≤ 122) || n = 95 || n = 45

/-- Task number of the first task, `self.tasks[0].task_number` (0 when the
list is empty, a case `validate` rejects earlier). -/
def headTaskNumber : List JobTask → Nat
  | [] => 0
  | t :: _ => t.task_number

/-- Specification reading of the adjacency condition of claim C3: each
adjacent pair of task numbers differs by exactly 1, i.e. every pair of
neighbouring tasks has successive numbers. -/
def AdjOk (l : List JobTask) : Prop :=
  ∀ pr ∈ l.zip l.tail, pr.1.task_number + 1 = pr.2.task_number

/-- Specification reading of the input-reference condition of claim C3:
every `input_from_task` is strictly less than its owner's task number and
refers to a task number already seen scanning left to right (the seen set
after processing position `i` holds the numbers of tasks `0..i`). -/
def RefsOk (l : List JobTask) : Prop :=
  ∀ (i : Nat) (h : i < l.length) (r : Nat),
    (l.get ⟨i, h⟩).input_from_task = some r →
      r < (l.get ⟨i, h⟩).task_number ∧
        r ∈ (l.take (i + 1)).map (fun t => t.task_number)

/-- The spawn record a task produces when its command resolves in the
registry (`Command::new(tool.command).args(&task.args)` in the source); a
task with an unregistered command never spawns, so for it the task's own
command name stands in (that case is used by no theorem below). -/
def plannedSpawn (s : PlanStep) : SpawnRecord :=
  match ToolRegistry.find_by_id s.command with
  | some tool => { command := tool.command, args := s.args }
  | none => { command := s.command, args := s.args }

/-- A spawn oracle whose processes always exit 0 and echo their stdin. -/
def oracleOkEcho : String → List String → List Nat → ProcOutput :=
  fun _ _ data => { exit_code := some 0, success := true, stdout := data, stderr := "" }

/-- Two-task plan whose second command is not in the registry: the first
stage is the registered `sort`, the second the unknown `frob`. -/
def c2Plan : WorkflowPlan :=
  { plan_id := none, plan_description := none,
    tasks := [ { task_number := 1, command := "sort", args := [], timeout_secs := 300,
                 input_from_task := none },
               { task_number := 2, command := "frob", args := [], timeout_secs := 300,
                 input_from_task := none } ] }

/-- An action envelope whose `jobs_created` (3) disagrees with its two
`job_ids`, the mismatch example used in the specification. -/
def mismatchEnvelope : ActionEnvelope :=
  { action_id := "act-1", plan_id := "plan-1", plan_description := none,
    jobs_created := 3, job_ids := ["job-1", "job-2"] }

/-! ## Helper lemmas -/

theorem renumberTasks_length (l : List PlanStep) : ∀ k, (renumberTasks k l).length = l.length := by
  induction l with
  | nil => intro k; rfl
  | cons t ts ih => intro k; simp [renumberTasks, ih]

theorem renumberTasks_map_num (l : List PlanStep) :
    ∀ k, (renumberTasks k l).map (fun t => t.task_number) = List.range' k l.length := by
  induction l with
  | nil => intro k; rfl
  | cons t ts ih => intro k; simp [renumberTasks, List.range'_succ, ih]

theorem renumberTasks_renumberTasks (l : List PlanStep) :
    ∀ k, renumberTasks k (renumberTasks k l) = renumberTasks k l := by
  induction l with
  | nil => intro k; rfl
  | cons t ts ih => intro k; simp [renumberTasks]; exact ih (k + 1)

/-! ## Claims -/

/-- C7: after `normalize_for_execution`, the task numbers of the resulting
task list are exactly the contiguous sequence 1..N in order, where N is the
number of tasks, regardless of the numbering in the input. -/
theorem c7_normalize_contiguous (p : WorkflowPlan) :
    p.normalize_for_execution.tasks.map (fun t => t.task_number) =
      List.range' 1 p.normalize_for_execution.tasks.length := by
  simp [WorkflowPlan.normalize_for_execution, renumberTasks_map_num, renumberTasks_length]

/-- C8: `normalize_for_execution` is idempotent — normalizing the result of
normalizing a plan yields the same plan as normalizing it once. -/
theorem c8_normalize_idempotent (p : WorkflowPlan) :
    p.normalize_for_execution.normalize_for_execution = p.normalize_for_execution := by
  obtain ⟨pid, pdesc, tasks⟩ := p
  rcases tasks with _ | ⟨t1, _ | ⟨t2, rest⟩⟩
  · rfl
  · by_cases h : t1.command = "uniq"
    · simp [WorkflowPlan.normalize_for_execution, h, renumberTasks]
    · simp [WorkflowPlan.normalize_for_execution, h, renumberTasks]
  · simp [WorkflowPlan.normalize_for_execution, renumberTasks,
      renumberTasks_renumberTasks]

/-- C4: a single-task plan whose sole command is `"uniq"` is rewritten by
`normalize_for_execution` into exactly two tasks — first a `sort` task, then
a `uniq` task whose `input_from_task` equals the sort task's task number.
The witness instantiates this at the plan parsed from the input
`\x7b"plan":["uniq"]\x7d` (the simple-schema branch). -/
theorem c4_uniq_rewrite (p : WorkflowPlan) (t : PlanStep)
    (h1 : p.tasks = [t]) (h2 : t.command = "uniq") :
    p.normalize_for_execution =
      { plan_id := p.plan_id, plan_description := p.plan_description,
        tasks := [ { task_number := 1, command := "sort", args := [], timeout_secs := 300,
                     input_from_task := none },
                   { task_number := 2, command := "uniq", args := [], timeout_secs := 300,
                     input_from_task := some 1 } ] } := by
  obtain ⟨pid, pdesc, tasks⟩ := p
  simp only at h1
  subst h1
  simp [WorkflowPlan.normalize_for_execution, h2, renumberTasks]

/-- Witness for C4: parsing `\x7b"plan":["uniq"]\x7d` (simple schema) and
normalizing yields the sort-then-uniq pair with the dependency link. -/
theorem c4_uniq_rewrite_witness :
    (simpleWorkflowToPlan ["uniq"]).normalize_for_execution =
      { plan_id := none, plan_description := none,
        tasks := [ { task_number := 1, command := "sort", args := [], timeout_secs := 300,
                     input_from_task := none },
                   { task_number := 2, command := "uniq", args := [], timeout_secs := 300,
                     input_from_task := some 1 } ] } :=
  c4_uniq_rewrite (simpleWorkflowToPlan ["uniq"])
    { task_number := 1, command := "uniq", args := [], timeout_secs := 300,
      input_from_task := none } rfl rfl

/-- C9: the quote-repair pass is a fixpoint on the valid JSON input
`\x7b"plan":[\x7b"cmd":"cat","args":["file.txt"]\x7d]\x7d`:
`repair_unescaped_quotes` returns that exact string unchanged, byte for
byte. -/
theorem c9_repair_fixpoint :
    repair_unescaped_quotes "\x7b\"plan\":[\x7b\"cmd\":\"cat\",\"args\":[\"file.txt\"]\x7d]\x7d" =
      "\x7b\"plan\":[\x7b\"cmd\":\"cat\",\"args\":[\"file.txt\"]\x7d]\x7d" := by
  decide

/-- C10: for the shared `simple_query` handling of `list_jobs`,
`list_workers` and `queue_stats`, Array elements that are not SimpleString,
BulkString or Integer (for example Null, Error, or nested Array elements) do
not fail the call — deleting such an element from the response leaves the
result unchanged, every Array response succeeds with the display strings of
the convertible elements, and a top-level SimpleString or BulkString reply is
accepted as a one-element result instead of being rejected. -/
theorem c10_simple_query_tolerant (xs ys inner : List RespValue) (e s : String) :
    (simple_query_response (.Array (xs ++ .Null :: ys)) =
        simple_query_response (.Array (xs ++ ys))) ∧
    (simple_query_response (.Array (xs ++ .Error e :: ys)) =
        simple_query_response (.Array (xs ++ ys))) ∧
    (simple_query_response (.Array (xs ++ .Array inner :: ys)) =
        simple_query_response (.Array (xs ++ ys))) ∧
    (simple_query_response (.Array xs) = .ok (xs.filterMap respDisplayItem)) ∧
    (simple_query_response (.SimpleString s) = .ok [s]) ∧
    (simple_query_response (.BulkString s) = .ok [s]) ∧
    (list_jobs_response (.SimpleString s) = .ok (.Jobs [s])) ∧
    (list_workers_response (.BulkString s) = .ok (.Workers [s])) ∧
    (queue_stats_response (.SimpleString s) = .ok (.QueueStats [s])) := by
  refine ⟨?_, ?_, ?_, rfl, rfl, rfl, rfl, rfl, rfl⟩ <;>
    simp [simple_query_response, List.filterMap_append, List.filterMap_cons, respDisplayItem]

/-- C6: a BulkString response to `submit_action` that decodes as an
`ActionEnvelope` is returned only when `jobs_created` equals the length of
`job_ids`; on a mismatch the call returns an error naming the two counts
rather than the decoded envelope. -/
theorem c6_submit_action_mismatch (decode : String → Option ActionEnvelope)
    (s : String) (envl : ActionEnvelope) (hdec : decode s = some envl) :
    (envl.jobs_created ≠ envl.job_ids.length →
      submit_action_response decode (.BulkString s) =
        .error ("ActionEnvelope validation failed: jobs_created (" ++
          toString envl.jobs_created ++ ") != job_ids.len() (" ++
          toString envl.job_ids.length ++ ")")) ∧
    (envl.jobs_created = envl.job_ids.length →
      submit_action_response decode (.BulkString s) = .ok envl) := by
  constructor <;> intro h <;>
    simp [submit_action_response, hdec, ActionEnvelope.validate, h]

/-- Witness for C6: the spec's example (`jobs_created = 3`, two job ids) is
rejected with the mismatch error naming both counts. -/
theorem c6_submit_action_mismatch_witness :
    submit_action_response (fun _ => some mismatchEnvelope) (.BulkString "x") =
      .error ("ActionEnvelope validation failed: jobs_created (" ++
        toString mismatchEnvelope.jobs_created ++ ") != job_ids.len() (" ++
        toString mismatchEnvelope.job_ids.length ++ ")") :=
  (c6_submit_action_mismatch (fun _ => some mismatchEnvelope) "x" mismatchEnvelope rfl).1
    (by decide)

/-- C5: every wire call made with a configured session credential sends AUTH
on the fresh connection before the substantive command; an Error reply to
AUTH aborts the call before the substantive command is sent, with an error
naming AUTH; a SimpleString or BulkString AUTH reply is accepted (the
substantive command is then sent); an Integer, Array or Null AUTH reply is a
protocol error, also sent before the substantive command. -/
theorem c5_auth_gate (key : String) (cmd : List String) (replies : List RespValue) :
    ((wireCall (some key) cmd replies).snd.head? = some ["AUTH", key]) ∧
    (∀ msg rest, replies = .Error msg :: rest →
      wireCall (some key) cmd replies =
        (.error ("AUTH failed: " ++ msg), [["AUTH", key]])) ∧
    (∀ s rest, replies = .SimpleString s :: rest →
      (wireCall (some key) cmd replies).snd = [["AUTH", key], cmd]) ∧
    (∀ s rest, replies = .BulkString s :: rest →
      (wireCall (some key) cmd replies).snd = [["AUTH", key], cmd]) ∧
    (∀ i rest, replies = .Integer i :: rest →
      wireCall (some key) cmd replies =
        (.error ("unexpected AUTH response: " ++ respDebug (.Integer i)), [["AUTH", key]])) ∧
    (∀ items rest, replies = .Array items :: rest →
      wireCall (some key) cmd replies =
        (.error ("unexpected AUTH response: " ++ respDebug (.Array items)), [["AUTH", key]])) ∧
    (∀ rest, replies = .Null :: rest →
      wireCall (some key) cmd replies =
        (.error ("unexpected AUTH response: " ++ respDebug .Null), [["AUTH", key]])) := by
  refine ⟨?_, ?_, ?_, ?_, ?_, ?_, ?_⟩
  · rcases replies with _ | ⟨r, rest⟩
    · simp [wireCall, connect_and_auth]
    · rcases r <;> rcases rest <;> simp [wireCall, connect_and_auth]
  · rintro msg rest rfl
    simp [wireCall, connect_and_auth]
  · rintro s rest rfl
    rcases rest <;> simp [wireCall, connect_and_auth]
  · rintro s rest rfl
    rcases rest <;> simp [wireCall, connect_and_auth]
  · rintro i rest rfl
    simp [wireCall, connect_and_auth]
  · rintro items rest rfl
    simp [wireCall, connect_and_auth]
  · rintro rest rfl
    simp [wireCall, connect_and_auth]

/-- Witness for C5: with credential `"secret"` and an Error reply to AUTH,
the call aborts with only the AUTH request sent and an error naming AUTH. -/
theorem c5_auth_gate_witness :
    wireCall (some "secret") ["PLAN.SUBMIT", "p"] [.Error "invalid session"] =
      (.error ("AUTH failed: " ++ "invalid session"), [["AUTH", "secret"]]) :=
  (c5_auth_gate "secret" ["PLAN.SUBMIT", "p"] [.Error "invalid session"]).2.1
    "invalid session" [] rfl

/-- C1 (amended): `get_plan` validates the id client-side before any network
call, but with Rust's Unicode `char::is_alphanumeric`, not the ASCII set
`[A-Za-z0-9_-]`: the request proceeds to the network exactly when the id is
non-empty, at most 128 UTF-8 bytes, and every character is Unicode
alphanumeric, underscore or dash; otherwise an error is returned with no
connection made.  Stated for ids over the code points below U+0100 on which
`rustIsAlphanumeric` models the Rust predicate exactly. -/
theorem c1_get_plan_validation (planId : String)
    (hm : ∀ c ∈ planId.data, c.toNat < 256) :
    (get_plan_request planId = .ok ["PLAN.GET", planId] ↔
      (planId ≠ "" ∧ planId.utf8ByteSize ≤ 128 ∧
        ∀ c ∈ planId.data, planIdCharOk c = true)) ∧
    ((∃ e, get_plan_request planId = .error e) ↔
      ¬ (planId ≠ "" ∧ planId.utf8ByteSize ≤ 128 ∧
        ∀ c ∈ planId.data, planIdCharOk c = true)) := by
  clear hm
  unfold get_plan_request
  by_cases h1 : planId.data.all planIdCharOk
  · by_cases h2 : planId = ""
    · subst h2
      simp
    · by_cases h3 : planId.utf8ByteSize > 128
      · simp only [h1, h2, h3]
        simp [Nat.not_le_of_lt h3, h2]
      · simp only [h1, h2, h3]
        simp only [List.all_eq_true] at h1
        simp [Nat.le_of_not_lt h3, h2, h1]
        exact h1
  · simp only [h1]
    simp only [List.all_eq_true] at h1
    simp [h1]

/-- Witness for C1: an id inside `[A-Za-z0-9_-]` and within the length limit
proceeds to the network as a `PLAN.GET` request. -/
theorem c1_get_plan_validation_witness :
    get_plan_request "plan_abc-123" = .ok ["PLAN.GET", "plan_abc-123"] :=
  (c1_get_plan_validation "plan_abc-123" (by decide)).1.mpr (by decide)

/-- Counterexample for C1 as stated: `"é"` (U+00E9) lies outside the claimed
character set `[A-Za-z0-9_-]`, yet `get_plan` does not reject it — the id is
Unicode alphanumeric, so validation passes and the `PLAN.GET` request
proceeds to the network. -/
theorem c1_counterexample :
    specPlanIdChar (Char.ofNat 233) = false ∧
    get_plan_request (String.mk [Char.ofNat 233]) =
      .ok ["PLAN.GET", String.mk [Char.ofNat 233]] := by
  constructor
  · decide
  · decide

theorem execLoop_first_unknown :
    ∀ (pre : List PlanStep) (t : PlanStep) (rest : List PlanStep)
      (oracle : String → List String → List Nat → ProcOutput)
      (data : List Nat) (trace : List SpawnRecord),
      (∀ s ∈ pre, ToolRegistry.find_by_id s.command ≠ none) →
      ToolRegistry.find_by_id t.command = none →
      (∃ e, (execLoop oracle (pre ++ t :: rest) data trace).fst = .error e) ∧
      (∃ k, (execLoop oracle (pre ++ t :: rest) data trace).snd =
        trace ++ (pre.map plannedSpawn).take k)
  | [], t, rest, oracle, data, trace => by
    intro _ hunk
    refine ⟨⟨"unknown tool in plan: " ++ t.command, ?_⟩, ⟨0, ?_⟩⟩ <;>
      simp [execLoop, hunk]
  | s :: pre, t, rest, oracle, data, trace => by
    intro hpre hunk
    cases hfind : ToolRegistry.find_by_id s.command with
    | none => exact absurd hfind (hpre s (by simp))
    | some tool =>
      simp only [List.cons_append, execLoop, hfind, List.append_eq]
      cases hok : stageOk tool (oracle tool.command s.args data) with
      | true =>
        rw [if_pos rfl]
        obtain ⟨⟨e, he⟩, ⟨k, hk⟩⟩ :=
          execLoop_first_unknown pre t rest oracle
            (oracle tool.command s.args data).stdout
            (trace ++ [{ command := tool.command, args := s.args }])
            (fun a ha => hpre a (by simp [ha])) hunk
        refine ⟨⟨e, he⟩, ⟨k + 1, ?_⟩⟩
        rw [hk]
        simp [plannedSpawn, hfind]
      | false =>
        rw [if_neg (by simp)]
        refine ⟨⟨_, rfl⟩, ⟨1, ?_⟩⟩
        simp [plannedSpawn, hfind]

theorem execLoop_first_unknown_run :
    ∀ (pre : List PlanStep) (t : PlanStep) (rest : List PlanStep)
      (oracle : String → List String → List Nat → ProcOutput)
      (data : List Nat) (trace : List SpawnRecord),
      (∀ s ∈ pre, ∃ tool, ToolRegistry.find_by_id s.command = some tool ∧
        ∀ d, stageOk tool (oracle tool.command s.args d) = true) →
      ToolRegistry.find_by_id t.command = none →
      execLoop oracle (pre ++ t :: rest) data trace =
        (.error ("unknown tool in plan: " ++ t.command), trace ++ pre.map plannedSpawn)
  | [], t, rest, oracle, data, trace => by
    intro _ hunk
    simp [execLoop, hunk]
  | s :: pre, t, rest, oracle, data, trace => by
    intro hpre hunk
    obtain ⟨tool, hfind, hok⟩ := hpre s (by simp)
    simp only [List.cons_append, execLoop, hfind, List.append_eq]
    rw [if_pos (hok data)]
    have hrec := execLoop_first_unknown_run pre t rest oracle
      (oracle tool.command s.args data).stdout
      (trace ++ [{ command := tool.command, args := s.args }])
      (fun a ha => hpre a (by simp [ha])) hunk
    exact hrec.trans (by simp [plannedSpawn, hfind])

/-- Every task list containing a command missing from the registry splits at
its first such task: a prefix of registered commands, then the first unknown
one.  This shows the decomposition hypotheses of the C2 theorem cover every
plan that names an unknown tool anywhere. -/
theorem exists_first_unknown (l : List PlanStep)
    (h : ∃ s ∈ l, ToolRegistry.find_by_id s.command = none) :
    ∃ pre t rest, l = pre ++ t :: rest ∧
      (∀ s ∈ pre, ToolRegistry.find_by_id s.command ≠ none) ∧
      ToolRegistry.find_by_id t.command = none := by
  induction l with
  | nil => simp at h
  | cons a l ih =>
    cases hfind : ToolRegistry.find_by_id a.command with
    | none => exact ⟨[], a, l, rfl, by simp, hfind⟩
    | some tool =>
      have hmem : ∃ s ∈ l, ToolRegistry.find_by_id s.command = none := by
        rcases h with ⟨s, hs, hnone⟩
        rcases List.mem_cons.mp hs with rfl | hs2
        · rw [hfind] at hnone; cases hnone
        · exact ⟨s, hs2, hnone⟩
      obtain ⟨pre, t, rest, heq, hpre, hunk⟩ := ih hmem
      refine ⟨a :: pre, t, rest, by simp [heq], ?_, hunk⟩
      intro s hs
      rcases List.mem_cons.mp hs with rfl | hs2
      · simp [hfind]
      · exact hpre s hs2

/-- C2 (amended): the executor resolves each command in the registry only
when its stage is reached.  For every plan whose task list splits as
`pre ++ t :: rest` with every command of `pre` registered and `t`'s command
unknown (any plan naming an unknown tool splits this way at its first
unknown command, see `exists_first_unknown`): execution always fails; every
spawned process comes from `pre`, so no process is spawned for `t` or any
later stage; when `pre` is empty the call fails before spawning any process
with an error naming `t`'s command; and when every `pre` stage's outcome is
accepted by its tool, all of `pre` runs and the call fails naming `t`'s
command. -/
theorem c2_executor_unknown_stages (plan : WorkflowPlan) (input : List Nat)
    (oracle : String → List String → List Nat → ProcOutput)
    (pre : List PlanStep) (t : PlanStep) (rest : List PlanStep)
    (htasks : plan.tasks = pre ++ t :: rest)
    (hpre : ∀ s ∈ pre, ToolRegistry.find_by_id s.command ≠ none)
    (hunknown : ToolRegistry.find_by_id t.command = none) :
    (∃ e, (Executor.execute plan input oracle).fst = .error e) ∧
    (∃ k, (Executor.execute plan input oracle).snd = (pre.map plannedSpawn).take k) ∧
    (pre = [] → Executor.execute plan input oracle =
      (.error ("unknown tool in plan: " ++ t.command), [])) ∧
    ((∀ s ∈ pre, ∃ tool, ToolRegistry.find_by_id s.command = some tool ∧
        ∀ d, stageOk tool (oracle tool.command s.args d) = true) →
      Executor.execute plan input oracle =
        (.error ("unknown tool in plan: " ++ t.command), pre.map plannedSpawn)) := by
  have hexec : Executor.execute plan input oracle =
      execLoop oracle (pre ++ t :: rest) input [] := by
    rw [Executor.execute, htasks, if_neg (by cases pre <;> simp)]
  refine ⟨?_, ?_, ?_, ?_⟩
  · rw [hexec]
    exact (execLoop_first_unknown pre t rest oracle input [] hpre hunknown).1
  · rw [hexec]
    obtain ⟨k, hk⟩ := (execLoop_first_unknown pre t rest oracle input [] hpre hunknown).2
    exact ⟨k, by simpa using hk⟩
  · intro hnil
    subst hnil
    rw [hexec]
    simp [execLoop, hunknown]
  · intro hrun
    rw [hexec]
    simpa using execLoop_first_unknown_run pre t rest oracle input [] hrun hunknown

/-- Witness for C2: in the two-task plan `[sort, frob]` with an
always-succeeding oracle, the registered `sort` stage runs (one process is
spawned) and the call fails naming the unknown `frob`. -/
theorem c2_executor_unknown_stages_witness :
    Executor.execute c2Plan [] oracleOkEcho =
      (.error ("unknown tool in plan: " ++ "frob"),
        List.map plannedSpawn
          [ { task_number := 1, command := "sort", args := [], timeout_secs := 300,
              input_from_task := none } ]) := by
  have h := (c2_executor_unknown_stages c2Plan [] oracleOkEcho
      [ { task_number := 1, command := "sort", args := [], timeout_secs := 300,
          input_from_task := none } ]
      { task_number := 2, command := "frob", args := [], timeout_secs := 300,
        input_from_task := none }
      [] rfl (by decide) (by decide)).2.2.2
  apply h
  intro s hs
  have hseq : s = { task_number := 1, command := "sort", args := [],
                    timeout_secs := 300, input_from_task := none } := by simpa using hs
  subst hseq
  exact ⟨{ id := "sort", command := "sort", description := "Sort lines of text.",
           patterns := ["sort", "order", "alphabetize", "sort lines"],
           ok_exit_codes := [0] },
    by decide, fun d => rfl⟩

/-- Counterexample for C2 as stated: in a two-task plan whose second command
`"frob"` is unknown, the error names `frob` but the first stage's `sort`
process has already been spawned — the plan does not fail before spawning
any process, and a stage of the plan does run. -/
theorem c2_counterexample :
    ToolRegistry.find_by_id "frob" = none ∧
    Executor.execute c2Plan [] oracleOkEcho =
      (.error "unknown tool in plan: frob", [{ command := "sort", args := [] }]) := by
  constructor
  · decide
  · decide

theorem adjOk_cons_cons (a b : JobTask) (r : List JobTask) :
    AdjOk (a :: b :: r) ↔ (a.task_number + 1 = b.task_number) ∧ AdjOk (b :: r) := by
  simp [AdjOk, List.zip_cons_cons, List.forall_mem_cons]

theorem windowsOk_iff : ∀ l : List JobTask, windowsOk l = true ↔ AdjOk l
  | [] => by simp [windowsOk, AdjOk]
  | [a] => by simp [windowsOk, AdjOk]
  | a :: b :: r => by
    rw [adjOk_cons_cons, ← windowsOk_iff (b :: r)]
    simp [windowsOk]

theorem refsProp_cons (t : JobTask) (rest : List JobTask) (seen : List Nat) :
    (∀ (i : Nat) (h : i < (t :: rest).length) (r : Nat),
        ((t :: rest).get ⟨i, h⟩).input_from_task = some r →
          r < ((t :: rest).get ⟨i, h⟩).task_number ∧
            (r ∈ seen ∨ r ∈ ((t :: rest).take (i + 1)).map (fun x => x.task_number))) ↔
      ((∀ r : Nat, t.input_from_task = some r →
          r < t.task_number ∧ (r = t.task_number ∨ r ∈ seen)) ∧
        (∀ (j : Nat) (h : j < rest.length) (r : Nat),
          (rest.get ⟨j, h⟩).input_from_task = some r →
            r < (rest.get ⟨j, h⟩).task_number ∧
              (r ∈ (t.task_number :: seen) ∨
                r ∈ (rest.take (j + 1)).map (fun x => x.task_number)))) := by
  constructor
  · intro H
    constructor
    · intro r hr
      have h0 : 0 < (t :: rest).length := Nat.succ_pos _
      have := H 0 h0 r (by simpa using hr)
      simp [List.take_succ_cons] at this
      tauto
    · intro j h r hr
      have hj : j + 1 < (t :: rest).length := Nat.succ_lt_succ h
      have := H (j + 1) hj r (by simpa using hr)
      simp [List.take_succ_cons] at this ⊢
      tauto
  · rintro ⟨H0, H1⟩ i h r hr
    cases i with
    | zero =>
      have := H0 r (by simpa using hr)
      simp [List.take_succ_cons]
      tauto
    | succ j =>
      have hj : j < rest.length := Nat.lt_of_succ_lt_succ h
      have := H1 j hj r (by simpa using hr)
      simp [List.take_succ_cons] at this ⊢
      tauto

theorem refsLoop_ok_iff : ∀ (l : List JobTask) (seen : List Nat),
    refsLoop seen l = .ok () ↔
      ∀ (i : Nat) (h : i < l.length) (r : Nat),
        (l.get ⟨i, h⟩).input_from_task = some r →
          r < (l.get ⟨i, h⟩).task_number ∧
            (r ∈ seen ∨ r ∈ (l.take (i + 1)).map (fun x => x.task_number))
  | [], seen => by simp [refsLoop]
  | t :: rest, seen => by
    rw [refsProp_cons]
    cases hin : t.input_from_task with
    | none =>
      simp only [refsLoop, hin]
      rw [refsLoop_ok_iff rest (t.task_number :: seen)]
      constructor
      · intro H
        exact ⟨fun r hr => by simp [hin] at hr, H⟩
      · rintro ⟨_, H⟩
        exact H
    | some r0 =>
      simp only [refsLoop, hin]
      cases hb : (decide (t.task_number ≤ r0) || !((t.task_number :: seen).contains r0)) with
      | true =>
        simp only [hb, if_true]
        constructor
        · intro habs
          exact absurd habs (by simp)
        · rintro ⟨H0, _⟩
          exfalso
          have h0 := H0 r0 rfl
          simp at hb
          rcases h0 with ⟨hlt, hmem⟩
          rcases hb with hb | hb
          · omega
          · tauto
      | false =>
        rw [if_neg (by simp)]
        rw [refsLoop_ok_iff rest (t.task_number :: seen)]
        simp at hb
        constructor
        · intro H
          refine ⟨fun r hr => ?_, H⟩
          cases hr
          constructor
          · omega
          · tauto
        · rintro ⟨_, H⟩
          exact H

theorem refsLoop_error_shape : ∀ (l : List JobTask) (seen : List Nat),
    refsLoop seen l ≠ .ok () → ∃ r, refsLoop seen l = .error (.BadInputReference r)
  | [], seen => by simp [refsLoop]
  | t :: rest, seen => by
    intro hne
    rw [refsLoop] at hne ⊢
    cases hin : t.input_from_task with
    | none =>
      simp only [hin] at hne ⊢
      exact refsLoop_error_shape rest (t.task_number :: seen) hne
    | some r0 =>
      simp only [hin] at hne ⊢
      cases hb : (decide (t.task_number ≤ r0) || !((t.task_number :: seen).contains r0)) with
      | true =>
        simp only [hb, if_true]
        exact ⟨r0, rfl⟩
      | false =>
        simp only [hb, if_false] at hne ⊢
        exact refsLoop_error_shape rest (t.task_number :: seen) hne

theorem refsOk_iff_loop (l : List JobTask) : refsLoop [] l = .ok () ↔ RefsOk l := by
  rw [refsLoop_ok_iff]
  unfold RefsOk
  constructor
  · intro H i h r hr
    obtain ⟨ha, hb⟩ := H i h r hr
    refine ⟨ha, ?_⟩
    rcases hb with hb | hb
    · exact absurd hb (List.not_mem_nil r)
    · exact hb
  · intro H i h r hr
    obtain ⟨ha, hb⟩ := H i h r hr
    exact ⟨ha, Or.inr hb⟩

/-- C3: for every `JobEnvelope` and `max_tasks`, `validate(max_tasks)`
returns Ok exactly when the task list is non-empty, the first task number is
1, the length is at most `max_tasks`, each adjacent pair of task numbers
differs by exactly 1 (in increasing order, per the NonMonotonicTasks error),
and every `input_from_task` is strictly less than its owner's task number and
refers to a task already seen scanning left to right; and on failure it
returns, in that checking order, `EmptyTasks`, `FirstTaskNotOne`,
`TooManyTasks`, `NonMonotonicTasks` or `BadInputReference` respectively. -/
theorem c3_validate_spec (env : JobEnvelope) (maxTasks : Nat) :
    (env.validate maxTasks = .ok () ↔
      (env.tasks ≠ [] ∧ headTaskNumber env.tasks = 1 ∧
        env.tasks.length ≤ maxTasks ∧ AdjOk env.tasks ∧ RefsOk env.tasks)) ∧
    (env.tasks = [] → env.validate maxTasks = .error .EmptyTasks) ∧
    (env.tasks ≠ [] → headTaskNumber env.tasks ≠ 1 →
      env.validate maxTasks = .error (.FirstTaskNotOne (headTaskNumber env.tasks))) ∧
    (env.tasks ≠ [] → headTaskNumber env.tasks = 1 → maxTasks < env.tasks.length →
      env.validate maxTasks = .error (.TooManyTasks env.tasks.length)) ∧
    (env.tasks ≠ [] → headTaskNumber env.tasks = 1 → env.tasks.length ≤ maxTasks →
      ¬ AdjOk env.tasks → env.validate maxTasks = .error .NonMonotonicTasks) ∧
    (env.tasks ≠ [] → headTaskNumber env.tasks = 1 → env.tasks.length ≤ maxTasks →
      AdjOk env.tasks → ¬ RefsOk env.tasks →
      ∃ r, env.validate maxTasks = .error (.BadInputReference r)) := by
  obtain ⟨jid, pid, pdesc, tasks⟩ := env
  rcases tasks with _ | ⟨t0, rest⟩
  · simp [JobEnvelope.validate, headTaskNumber]
  · simp only [JobEnvelope.validate, headTaskNumber]
    by_cases h1 : t0.task_number = 1
    · by_cases h2 : (t0 :: rest).length ≤ maxTasks
      · have h2x : ¬ ((t0 :: rest).length > maxTasks) := by omega
        cases hw : windowsOk (t0 :: rest) with
        | true =>
          have hadj : AdjOk (t0 :: rest) := (windowsOk_iff _).mp hw
          refine ⟨?_, ?_, ?_, ?_, ?_, ?_⟩
          · rw [if_neg (by simp [h1]), if_neg (by simpa using h2x),
              if_neg (by simp [hw])]
            rw [refsOk_iff_loop]
            have h2l : rest.length + 1 ≤ maxTasks := by simpa using h2
            simp [h1, hadj, h2l]
          · intro habs; cases habs
          · intro _ habs; exact absurd h1 habs
          · intro _ _ habs; omega
          · intro _ _ _ habs; exact absurd hadj habs
          · intro _ _ _ _ hrefs
            rw [if_neg (by simp [h1]), if_neg (by simpa using h2x),
              if_neg (by simp [hw])]
            apply refsLoop_error_shape
            intro hok
            exact hrefs ((refsOk_iff_loop _).mp hok)
        | false =>
          have hadj : ¬ AdjOk (t0 :: rest) := by
            intro h
            have := (windowsOk_iff (t0 :: rest)).mpr h
            rw [hw] at this
            cases this
          refine ⟨?_, ?_, ?_, ?_, ?_, ?_⟩
          · rw [if_neg (by simp [h1]), if_neg (by simpa using h2x),
              if_pos (by simp [hw])]
            constructor
            · intro habs; cases habs
            · rintro ⟨_, _, _, hadj2, _⟩
              exact absurd hadj2 hadj
          · intro habs; cases habs
          · intro _ habs; exact absurd h1 habs
          · intro _ _ habs; omega
          · intro _ _ _ _
            rw [if_neg (by simp [h1]), if_neg (by simpa using h2x),
              if_pos (by simp [hw])]
          · intro _ _ _ habs _; exact absurd habs hadj
      · refine ⟨?_, ?_, ?_, ?_, ?_, ?_⟩
        · rw [if_neg (by simp [h1]), if_pos (by omega)]
          constructor
          · intro habs; cases habs
          · rintro ⟨_, _, hlen, _⟩
            exact absurd hlen h2
        · intro habs; cases habs
        · intro _ habs; exact absurd h1 habs
        · intro _ _ _
          rw [if_neg (by simp [h1]), if_pos (by omega)]
        · intro _ _ habs; exact absurd habs h2
        · intro _ _ habs; exact absurd habs h2
    · refine ⟨?_, ?_, ?_, ?_, ?_, ?_⟩
      · rw [if_pos h1]
        constructor
        · intro habs; cases habs
        · rintro ⟨_, hhead, _⟩
          exact absurd hhead h1
      · intro habs; cases habs
      · intro _ _; rw [if_pos h1]
      · intro _ habs; exact absurd habs h1
      · intro _ habs; exact absurd habs h1
      · intro _ habs; exact absurd habs h1

/-- Witness for C3: the empty envelope fails validation with `EmptyTasks`. -/
theorem c3_validate_spec_witness :
    JobEnvelope.validate
      { job_id := "job", plan_id := "plan", plan_description := none, tasks := [] } 5 =
      .error .EmptyTasks :=
  (c3_validate_spec
    { job_id := "job", plan_id := "plan", plan_description := none, tasks := [] } 5).2.1 rfl
